import Mathlib

/-!
Shallow embedding of the connect-four rules core from `src/main.rs`: the grid
state (`Grid`), the placement operations (`Grid.insert`, `Grid.add_at_column`)
and the straight-line match detection (`Grid.straight_matches`,
`Grid.get_matches`).

Modelling conventions: `u32` values are `Nat` (the code performs no wrapping
arithmetic on them); the `HashMap<UVec2, u32>` of occupied cells is an
association list in which the most recent insertion shadows earlier bindings
(observationally the same `get` behaviour as the hash map); a
`HashSet<UVec2>` of match coordinates is a `Finset (Nat × Nat)`; the `Vec` of
matches is a `List Match`.
-/

/-- Error type of `Grid::get` (`enum ElemError { NoElem }`). -/
inductive ElemError where
  | NoElem
deriving DecidableEq

/-- `struct Grid { width: u32, height: u32, elements: HashMap<UVec2, u32> }`. -/
structure Grid where
  width : Nat
  height : Nat
  elements : List ((Nat × Nat) × Nat)
deriving DecidableEq

/-- First binding of `pos` in the association list (the hash-map lookup). -/
def lookupPos : List ((Nat × Nat) × Nat) → (Nat × Nat) → Option Nat
  | [], _ => none
  | (q, v) :: l, p => if p = q then some v else lookupPos l p

/-- `Result::is_err`, modelled for `Except` (absent from this toolchain). -/
def Except.isErr {e a : Type} : Except e a → Bool
  | Except.ok _ => false
  | Except.error _ => true

/-- Structural decidable equality for `Except`. -/
def exceptDecEq {e a : Type} [DecidableEq e] [DecidableEq a] :
    DecidableEq (Except e a)
  | Except.ok x, Except.ok y =>
      if h : x = y then isTrue (congrArg Except.ok h)
      else isFalse (fun hh => h (Except.ok.inj hh))
  | Except.ok _, Except.error _ => isFalse (fun hh => Except.noConfusion hh)
  | Except.error _, Except.ok _ => isFalse (fun hh => Except.noConfusion hh)
  | Except.error x, Except.error y =>
      if h : x = y then isTrue (congrArg Except.error h)
      else isFalse (fun hh => h (Except.error.inj hh))

instance {e a : Type} [DecidableEq e] [DecidableEq a] : DecidableEq (Except e a) :=
  exceptDecEq

/-- `Grid::get`: returns the stored piece type, or `Err(ElemError::NoElem)`
when the cell has no entry. -/
def Grid.get (g : Grid) (pos : Nat × Nat) : Except ElemError Nat :=
  match lookupPos g.elements pos with
  | some v => Except.ok v
  | none => Except.error ElemError.NoElem

/-- `Grid::insert`: unconditional write; the new binding shadows any older
binding at the same position. -/
def Grid.insert (g : Grid) (pos : Nat × Nat) (typ : Nat) : Grid :=
  { g with elements := (pos, typ) :: g.elements }

/-- `Grid::add_at_column`: scan rows `y = 0 .. height-1` of `column` in order
and put the piece in the first empty row found; when no row is empty the Rust
loop falls through and the function (whose return type is `()`) returns with
the grid untouched — there is no error channel. -/
def Grid.add_at_column (g : Grid) (column : Nat) (element_type : Nat) : Grid :=
  match (List.range g.height).find? (fun y => (g.get (column, y)).isErr) with
  | some y => g.insert (column, y) element_type
  | none => g

/-- The grid as constructed in `setup` before any placement: no elements. -/
def Grid.empty (w h : Nat) : Grid := ⟨w, h, []⟩

/-- A sequence of `add_at_column` calls all targeting one column. -/
def Grid.applyColumnSeq (g : Grid) (column : Nat) (ts : List Nat) : Grid :=
  ts.foldl (fun g t => g.add_at_column column t) g

/-- `enum Match { Straight(HashSet<UVec2>) }`. -/
inductive Match where
  | straight (coords : Finset (Nat × Nat))
deriving DecidableEq

/-- Coordinate set carried by a match. -/
def Match.coords : Match → Finset (Nat × Nat)
  | .straight s => s

/-- `struct Matches { matches: Vec<Match> }`; the Rust field `matches` is
named `list` here because `matches` is a Lean keyword. -/
structure Matches where
  list : List Match
deriving DecidableEq

/-- `Matches::add`: push one match at the end. -/
def Matches.add (ms : Matches) (m : Match) : Matches := ⟨ms.list ++ [m]⟩

/-- `Matches::append`: move the other collection's matches to the end. -/
def Matches.append (ms other : Matches) : Matches := ⟨ms.list ++ other.list⟩

/-- `Matches::is_empty`. -/
def Matches.is_empty (ms : Matches) : Bool := ms.list.isEmpty

/-- `Matches::without_duplicates`: all coordinates of all matches, deduplicated. -/
def Matches.without_duplicates (ms : Matches) : Finset (Nat × Nat) :=
  ms.list.foldr (fun m acc => m.coords ∪ acc) ∅

/-- `enum MatchDirection { Horizontal, Vertical }`. -/
inductive MatchDirection where
  | Horizontal
  | Vertical

/-- The mutable sweep state of `straight_matches`: accumulated matches, the
current run (`current_match`) and the previously seen type (`previous_type`). -/
structure ScanState where
  acc : List Match
  current : List (Nat × Nat)
  previous_type : Option Nat

/-- Closing a run: `match current_match.len() { 0..=3 => {}, _ => add }`. -/
def closeRun (ms : List Match) (cur : List (Nat × Nat)) : List Match :=
  if 4 ≤ cur.length then ms ++ [Match.straight cur.toFinset] else ms

/-- One step of the inner sweep of `straight_matches` at position `pos`:
an empty cell is skipped (the `if let Ok` falls through); an occupied cell
either extends the run (empty run, or same type as `previous_type`) or closes
it and starts a new run at `pos`. -/
def scanStep (g : Grid) (s : ScanState) (pos : Nat × Nat) : ScanState :=
  match g.get pos with
  | Except.error _ => s
  | Except.ok current_type =>
    if s.current = [] ∨ s.previous_type = some current_type then
      { s with previous_type := some current_type, current := s.current ++ [pos] }
    else
      { acc := closeRun s.acc s.current
        current := [pos]
        previous_type := some current_type }

/-- The positions visited by the inner loop for outer index `one`: with
`Horizontal` the first coordinate is `one` (fixed x, y sweeps `0..height`);
with `Vertical` the second coordinate is `one` (fixed y, x sweeps `0..width`),
exactly as the `pos = [..]` construction in the source. -/
def linePositions (g : Grid) (direction : MatchDirection) (one : Nat) : List (Nat × Nat) :=
  match direction with
  | MatchDirection.Horizontal => (List.range g.height).map (fun two => (one, two))
  | MatchDirection.Vertical => (List.range g.width).map (fun two => (two, one))

/-- One outer iteration of `straight_matches`: sweep the line from a fresh run
state, then close the remaining run at the sweep boundary. -/
def scanLine (g : Grid) (ms : List Match) (l : List (Nat × Nat)) : List Match :=
  let s := l.foldl (scanStep g) ⟨ms, [], none⟩
  closeRun s.acc s.current

/-- `Grid::straight_matches`: outer loop over `0..width` (`Horizontal`) or
`0..height` (`Vertical`), accumulating the matches of every line. -/
def Grid.straight_matches (g : Grid) (direction : MatchDirection) : Matches :=
  ⟨(List.range (match direction with
      | MatchDirection.Horizontal => g.width
      | MatchDirection.Vertical => g.height)).foldl
      (fun ms one => scanLine g ms (linePositions g direction one)) []⟩

/-- `Grid::get_matches`: the `Horizontal`-direction pass followed by the
`Vertical`-direction pass, appended in that order. -/
def Grid.get_matches (g : Grid) : Matches :=
  (g.straight_matches MatchDirection.Horizontal).append
    (g.straight_matches MatchDirection.Vertical)

/-- Error taxonomy of spec §7 for the placement operation. -/
inductive AddError where
  | ColumnFull
  | OutOfRange
deriving DecidableEq

/-- The placement operation as the spec words it (§4.1, §7): the column index
must lie in `[0, width)` else `OutOfRange` is reported; the first empty row
receives the piece; with no empty row the operation reports `ColumnFull`.
This definition follows the spec's words and exists only to be compared with
the source-translated `Grid.add_at_column`. -/
def addAtColumnSpec (g : Grid) (column : Nat) (element_type : Nat) : Except AddError Grid :=
  if column < g.width then
    match (List.range g.height).find? (fun y => (g.get (column, y)).isErr) with
    | some y => Except.ok (g.insert (column, y) element_type)
    | none => Except.error AddError.ColumnFull
  else
    Except.error AddError.OutOfRange

/-- The occupied positions of a line, in sweep order: these are exactly the
positions at which the `if let Ok` branch of the sweep fires. -/
def occList (g : Grid) (l : List (Nat × Nat)) : List (Nat × Nat) :=
  l.filter (fun p => (g.get p).isOk)

/-- Every occupied cell among the positions `l` holds piece type `t`. -/
def SameTyped (g : Grid) (t : Nat) (l : List (Nat × Nat)) : Prop :=
  ∀ p ∈ l, ∀ u, g.get p = Except.ok u → u = t

/-- Column `c` is occupied exactly at rows `0, 1, …, k-1`. -/
def ColumnFilled (g : Grid) (c k : Nat) : Prop :=
  ∀ y, ((g.get (c, y)).isOk = true) ↔ y < k

/-! ### Concrete grids used by the examples, witnesses and counterexamples -/

/-- 7×6 grid whose bottom row holds types `[0,0,0,0,1,1,1]` (spec §8). -/
def gBottomRow : Grid :=
  ⟨7, 6, [((0,0),0), ((1,0),0), ((2,0),0), ((3,0),0), ((4,0),1), ((5,0),1), ((6,0),1)]⟩

/-- 7×6 grid holding a horizontal run of four `0`s on row 0 (columns 0–3) and
a vertical run of four `1`s in column 6 (rows 0–3). -/
def gBothAxes : Grid :=
  ⟨7, 6, [((0,0),0), ((1,0),0), ((2,0),0), ((3,0),0),
          ((6,0),1), ((6,1),1), ((6,2),1), ((6,3),1)]⟩

/-- 7×6 grid whose column 0 is completely full. -/
def gFullColumn : Grid :=
  ⟨7, 6, [((0,0),0), ((0,1),1), ((0,2),0), ((0,3),1), ((0,4),0), ((0,5),1)]⟩

/-- 7×6 grid with row 0 occupied by type 0 exactly at columns 1,2,3,4. -/
def gRowFour : Grid :=
  ⟨7, 6, [((1,0),0), ((2,0),0), ((3,0),0), ((4,0),0)]⟩

/-- 7×6 grid with column 2 occupied by type 1 exactly at rows 0,1,2. -/
def gColThree : Grid :=
  ⟨7, 6, [((2,0),1), ((2,1),1), ((2,2),1)]⟩

/-- 7×6 grid with row 0 occupied by type 0 at columns 0,1,3,4 (a gap at 2). -/
def gRowGap : Grid :=
  ⟨7, 6, [((0,0),0), ((1,0),0), ((3,0),0), ((4,0),0)]⟩

/-! ### Basic lemmas: `get`, `insert`, `add_at_column` -/

lemma isErr_eq_not_isOk {e a : Type} (x : Except e a) : x.isErr = !x.isOk := by
  cases x <;> rfl

lemma Grid.get_insert (g : Grid) (p q : Nat × Nat) (t : Nat) :
    (g.insert p t).get q = if q = p then Except.ok t else g.get q := by
  by_cases h : q = p <;> simp [Grid.insert, Grid.get, lookupPos, h]

lemma Grid.width_insert (g : Grid) (p : Nat × Nat) (t : Nat) :
    (g.insert p t).width = g.width := rfl

lemma Grid.height_insert (g : Grid) (p : Nat × Nat) (t : Nat) :
    (g.insert p t).height = g.height := rfl

lemma find_first_range (p : Nat → Bool) (k : Nat) :
    ∀ n, (∀ y, y < n → (p y = true ↔ k ≤ y)) →
      (List.range n).find? p = if k < n then some k else none := by
  intro n
  induction n with
  | zero => simp
  | succ n ih =>
    intro hp
    rw [List.range_succ, List.find?_append, ih (fun y hy => hp y (Nat.lt_succ_of_lt hy))]
    by_cases hk : k < n
    · have h1 : k < n + 1 := Nat.lt_succ_of_lt hk
      simp [hk, h1]
    · by_cases hk2 : k = n
      · subst hk2
        have hpk : p k = true := (hp k (Nat.lt_succ_self k)).mpr (Nat.le_refl k)
        simp [hk, hpk, Nat.lt_succ_self]
      · have hnk : ¬ p n = true := by
          rw [hp n (Nat.lt_succ_self n)]; omega
        have h2 : ¬ k < n + 1 := by omega
        simp [hk, hnk, h2]

lemma ColumnFilled.isErr_iff {g : Grid} {c k : Nat} (h : ColumnFilled g c k) (y : Nat) :
    ((g.get (c, y)).isErr = true) ↔ k ≤ y := by
  have h1 := h y
  cases hg : g.get (c, y) with
  | ok v =>
    rw [hg] at h1
    simp [Except.isErr, Except.isOk, Except.toBool] at h1 ⊢
    omega
  | error e =>
    rw [hg] at h1
    simp [Except.isErr, Except.isOk, Except.toBool] at h1 ⊢
    omega

lemma add_at_column_of_lt {g : Grid} {c k : Nat} (t : Nat)
    (hf : ColumnFilled g c k) (hk : k < g.height) :
    g.add_at_column c t = g.insert (c, k) t := by
  unfold Grid.add_at_column
  rw [find_first_range _ k g.height (fun y _ => hf.isErr_iff y)]
  simp [hk]

lemma add_at_column_of_full {g : Grid} (c t : Nat)
    (hfull : ∀ y, y < g.height → (g.get (c, y)).isOk = true) :
    g.add_at_column c t = g := by
  unfold Grid.add_at_column
  have hnone : (List.range g.height).find? (fun y => (g.get (c, y)).isErr) = none := by
    rw [List.find?_eq_none]
    intro y hy
    rw [List.mem_range] at hy
    rw [isErr_eq_not_isOk, hfull y hy]
    decide
  rw [hnone]

lemma columnFilled_insert {g : Grid} {c k : Nat} (t : Nat) (hf : ColumnFilled g c k) :
    ColumnFilled (g.insert (c, k) t) c (k + 1) := by
  intro y
  rw [Grid.get_insert]
  by_cases hy : y = k
  · subst hy
    simp [Except.isOk, Except.toBool]
  · have hne : ((c, y) : Nat × Nat) ≠ (c, k) := by
      intro hh
      exact hy (congrArg Prod.snd hh)
    rw [if_neg hne, hf y]
    omega

lemma Grid.height_add_at_column (g : Grid) (c t : Nat) :
    (g.add_at_column c t).height = g.height := by
  unfold Grid.add_at_column
  cases (List.range g.height).find? (fun y => (g.get (c, y)).isErr) with
  | none => rfl
  | some y => rfl

lemma Grid.width_add_at_column (g : Grid) (c t : Nat) :
    (g.add_at_column c t).width = g.width := by
  unfold Grid.add_at_column
  cases (List.range g.height).find? (fun y => (g.get (c, y)).isErr) with
  | none => rfl
  | some y => rfl

lemma columnFilled_add {g : Grid} (c t : Nat)
    (hh : ∃ k, k ≤ g.height ∧ ColumnFilled g c k) :
    ∃ k, k ≤ (g.add_at_column c t).height ∧ ColumnFilled (g.add_at_column c t) c k := by
  obtain ⟨k, hk, hf⟩ := hh
  rw [Grid.height_add_at_column]
  by_cases hlt : k < g.height
  · rw [add_at_column_of_lt t hf hlt]
    exact ⟨k + 1, by omega, columnFilled_insert t hf⟩
  · have hk2 : k = g.height := by omega
    subst hk2
    rw [add_at_column_of_full c t (fun y hy => (hf y).mpr hy)]
    exact ⟨g.height, Nat.le_refl _, hf⟩

lemma applyColumnSeq_cons (g : Grid) (c t : Nat) (ts : List Nat) :
    g.applyColumnSeq c (t :: ts) = (g.add_at_column c t).applyColumnSeq c ts := rfl

lemma columnFilled_applyColumnSeq (c : Nat) :
    ∀ (ts : List Nat) (g : Grid), (∃ k, k ≤ g.height ∧ ColumnFilled g c k) →
      ∃ k, k ≤ (g.applyColumnSeq c ts).height ∧ ColumnFilled (g.applyColumnSeq c ts) c k := by
  intro ts
  induction ts with
  | nil => intro g hh; exact hh
  | cons t ts ih =>
    intro g hh
    rw [applyColumnSeq_cons]
    exact ih (g.add_at_column c t) (columnFilled_add c t hh)

lemma columnFilled_empty (w h c : Nat) : ColumnFilled (Grid.empty w h) c 0 := by
  intro y
  simp [Grid.empty, Grid.get, lookupPos, Except.isOk, Except.toBool]

lemma applyColumnSeq_height (c : Nat) :
    ∀ (ts : List Nat) (g : Grid), (g.applyColumnSeq c ts).height = g.height := by
  intro ts
  induction ts with
  | nil => intro g; rfl
  | cons t ts ih =>
    intro g
    rw [applyColumnSeq_cons, ih, Grid.height_add_at_column]

/-! ### Lemmas about one directional sweep -/

lemma scanStep_err {g : Grid} {pos : Nat × Nat} (s : ScanState) {e : ElemError}
    (h : g.get pos = Except.error e) : scanStep g s pos = s := by
  unfold scanStep
  rw [h]

lemma scanStep_extend {g : Grid} {pos : Nat × Nat} (s : ScanState) {u : Nat}
    (h : g.get pos = Except.ok u)
    (hc : s.current = [] ∨ s.previous_type = some u) :
    scanStep g s pos = ⟨s.acc, s.current ++ [pos], some u⟩ := by
  unfold scanStep
  rw [h]
  exact if_pos hc

lemma scanStep_close {g : Grid} {pos : Nat × Nat} (s : ScanState) {u : Nat}
    (h : g.get pos = Except.ok u)
    (hc : ¬ (s.current = [] ∨ s.previous_type = some u)) :
    scanStep g s pos = ⟨closeRun s.acc s.current, [pos], some u⟩ := by
  unfold scanStep
  rw [h]
  exact if_neg hc

lemma occList_nil (g : Grid) : occList g [] = [] := rfl

lemma occList_cons_err {g : Grid} {p : Nat × Nat} (l : List (Nat × Nat)) {e : ElemError}
    (h : g.get p = Except.error e) : occList g (p :: l) = occList g l := by
  unfold occList
  rw [List.filter_cons]
  simp [h, Except.isOk, Except.toBool]

lemma occList_cons_ok {g : Grid} {p : Nat × Nat} (l : List (Nat × Nat)) {u : Nat}
    (h : g.get p = Except.ok u) : occList g (p :: l) = p :: occList g l := by
  unfold occList
  rw [List.filter_cons]
  simp [h, Except.isOk, Except.toBool]

lemma sameTyped_cons {g : Grid} {t : Nat} {p : Nat × Nat} {l : List (Nat × Nat)}
    (h : SameTyped g t (p :: l)) : SameTyped g t l :=
  fun q hq => h q (List.mem_cons_of_mem p hq)

lemma foldl_scanStep_run (g : Grid) (t : Nat) :
    ∀ (l : List (Nat × Nat)) (s : ScanState), SameTyped g t l →
      s.previous_type = some t → s.current ≠ [] →
      l.foldl (scanStep g) s = ⟨s.acc, s.current ++ occList g l, some t⟩ := by
  intro l
  induction l with
  | nil =>
    intro s _ h1 _
    cases s with
    | mk a c p =>
      simp at h1
      simp [occList_nil, h1]
  | cons p l ih =>
    intro s hst hprev hcur
    rw [List.foldl_cons]
    cases hg : g.get p with
    | error e =>
      rw [scanStep_err s hg, ih s (sameTyped_cons hst) hprev hcur, occList_cons_err l hg]
    | ok u =>
      have hu : u = t := hst p (List.mem_cons_self p l) u hg
      subst hu
      rw [scanStep_extend s hg (Or.inr hprev)]
      rw [ih _ (sameTyped_cons hst) rfl (by simp)]
      rw [occList_cons_ok l hg]
      simp

lemma foldl_scanStep_clean (g : Grid) (t : Nat) :
    ∀ (l : List (Nat × Nat)) (ms : List Match) (pv : Option Nat), SameTyped g t l →
      l.foldl (scanStep g) ⟨ms, [], pv⟩ =
        if occList g l = [] then ⟨ms, [], pv⟩ else ⟨ms, occList g l, some t⟩ := by
  intro l
  induction l with
  | nil => intro ms pv _; simp [occList_nil]
  | cons p l ih =>
    intro ms pv hst
    rw [List.foldl_cons]
    cases hg : g.get p with
    | error e =>
      rw [scanStep_err _ hg, ih ms pv (sameTyped_cons hst), occList_cons_err l hg]
    | ok u =>
      have hu : u = t := hst p (List.mem_cons_self p l) u hg
      rw [hu] at hg
      rw [scanStep_extend _ hg (Or.inl rfl)]
      show l.foldl (scanStep g) ⟨ms, [p], some t⟩ = _
      rw [foldl_scanStep_run g t l ⟨ms, [p], some t⟩ (sameTyped_cons hst) rfl (by simp)]
      rw [occList_cons_ok l hg]
      simp

lemma scanLine_sameType {g : Grid} {t : Nat} {l : List (Nat × Nat)} (ms : List Match)
    (hst : SameTyped g t l) :
    scanLine g ms l =
      if 4 ≤ (occList g l).length then ms ++ [Match.straight (occList g l).toFinset]
      else ms := by
  unfold scanLine
  rw [foldl_scanStep_clean g t l ms none hst]
  by_cases h : occList g l = []
  · simp [h, closeRun]
  · simp [h, closeRun]

lemma scanLine_sameType_short {g : Grid} {t : Nat} {l : List (Nat × Nat)} (ms : List Match)
    (hst : SameTyped g t l) (hlen : (occList g l).length ≤ 3) :
    scanLine g ms l = ms := by
  rw [scanLine_sameType ms hst, if_neg (by omega)]

/-! ### Generic lemmas about the outer fold -/

lemma foldl_lines_id {α : Type} (step : List Match → α → List Match) :
    ∀ (L : List α) (ms : List Match), (∀ a ∈ L, ∀ m, step m a = m) →
      L.foldl step ms = ms := by
  intro L
  induction L with
  | nil => intro ms _; rfl
  | cons a L ih =>
    intro ms h
    rw [List.foldl_cons, h a (List.mem_cons_self a L)]
    exact ih ms (fun b hb => h b (List.mem_cons_of_mem a hb))

lemma foldl_lines_single {α : Type} [DecidableEq α] (step : List Match → α → List Match)
    (δ : List Match) :
    ∀ (L : List α) (r : α), L.Nodup → r ∈ L →
      (∀ a ∈ L, a ≠ r → ∀ m, step m a = m) → (∀ m, step m r = m ++ δ) →
      ∀ ms, L.foldl step ms = ms ++ δ := by
  intro L
  induction L with
  | nil => intro r _ hr; exact absurd hr (List.not_mem_nil r)
  | cons a L ih =>
    intro r hnd hr hoth hsing ms
    rw [List.foldl_cons]
    rcases List.mem_cons.mp hr with ha | ha
    · have hnotin : a ∉ L := (List.nodup_cons.mp hnd).1
      rw [ha] at hsing
      rw [hsing ms]
      apply foldl_lines_id step L (ms ++ δ)
      intro b hb m
      apply hoth b (List.mem_cons_of_mem a hb)
      intro hbr
      apply hnotin
      rw [← ha, ← hbr]
      exact hb
    · have hne : a ≠ r := by
        intro hh
        apply (List.nodup_cons.mp hnd).1
        rw [hh]
        exact ha
      rw [hoth a (List.mem_cons_self a L) hne ms]
      exact ih r (List.nodup_cons.mp hnd).2 ha
        (fun b hb => hoth b (List.mem_cons_of_mem a hb)) hsing ms

/-! ### Helpers about filters over ranges and line positions -/

lemma filter_map_list {α β : Type} (f : α → β) (p : β → Bool) :
    ∀ l : List α, (l.map f).filter p = (l.filter (fun a => p (f a))).map f := by
  intro l
  induction l with
  | nil => rfl
  | cons a l ih =>
    rw [List.map_cons, List.filter_cons, List.filter_cons]
    cases hpa : p (f a)
    · simp only [hpa, Bool.false_eq_true, if_false, ih]
    · simp only [hpa, if_true, List.map_cons, ih]

lemma list_toFinset_map {α β : Type} [DecidableEq α] [DecidableEq β] (f : α → β)
    (l : List α) : (l.map f).toFinset = l.toFinset.image f := by
  ext b
  simp [List.mem_toFinset, List.mem_map, Finset.mem_image]

lemma range_filter_eq_single (r : Nat) (p : Nat → Bool) :
    ∀ n, r < n → (∀ y, y < n → (p y = true ↔ y = r)) →
      (List.range n).filter p = [r] := by
  intro n
  induction n with
  | zero => intro h _; exact absurd h (Nat.not_lt_zero r)
  | succ n ih =>
    intro hr hp
    rw [List.range_succ, List.filter_append]
    by_cases hrn : r = n
    · have h1 : (List.range n).filter p = [] := by
        rw [List.filter_eq_nil_iff]
        intro y hy
        rw [List.mem_range] at hy
        rw [hp y (Nat.lt_succ_of_lt hy)]
        omega
      have h2 : p n = true := by
        rw [hp n (Nat.lt_succ_self n)]
        omega
      simp [h1, List.filter_cons, h2, hrn]
    · have hrn2 : r < n := by omega
      rw [ih hrn2 (fun y hy => hp y (Nat.lt_succ_of_lt hy))]
      have h2 : p n = false := by
        cases hpn : p n
        · rfl
        · exfalso
          have := (hp n (Nat.lt_succ_self n)).mp hpn
          omega
      simp [List.filter_cons, h2]

lemma straight_matches_H (g : Grid) :
    (g.straight_matches MatchDirection.Horizontal).list =
      (List.range g.width).foldl
        (fun ms one => scanLine g ms (linePositions g MatchDirection.Horizontal one)) [] := rfl

lemma straight_matches_V (g : Grid) :
    (g.straight_matches MatchDirection.Vertical).list =
      (List.range g.height).foldl
        (fun ms one => scanLine g ms (linePositions g MatchDirection.Vertical one)) [] := rfl

lemma get_matches_list (g : Grid) :
    (g.get_matches).list =
      (g.straight_matches MatchDirection.Horizontal).list ++
        (g.straight_matches MatchDirection.Vertical).list := rfl

lemma linePositions_H (g : Grid) (x : Nat) :
    linePositions g MatchDirection.Horizontal x =
      (List.range g.height).map (fun two => (x, two)) := rfl

lemma linePositions_V (g : Grid) (y : Nat) :
    linePositions g MatchDirection.Vertical y =
      (List.range g.width).map (fun two => (two, y)) := rfl

lemma mem_linePositions_H {g : Grid} {x : Nat} (hx : x < g.width) :
    ∀ p ∈ linePositions g MatchDirection.Horizontal x, p.1 < g.width ∧ p.2 < g.height := by
  intro p hp
  rw [linePositions_H] at hp
  simp only [List.mem_map, List.mem_range] at hp
  obtain ⟨a, ha, rfl⟩ := hp
  exact ⟨hx, ha⟩

lemma mem_linePositions_V {g : Grid} {y : Nat} (hy : y < g.height) :
    ∀ p ∈ linePositions g MatchDirection.Vertical y, p.1 < g.width ∧ p.2 < g.height := by
  intro p hp
  rw [linePositions_V] at hp
  simp only [List.mem_map, List.mem_range] at hp
  obtain ⟨a, ha, rfl⟩ := hp
  exact ⟨ha, hy⟩

/-! ### Single-row configurations: occupied cells exactly `(x, r)` for `x ∈ S` -/

lemma row_sameTyped {g : Grid} {r t : Nat} {S : Finset Nat}
    (hocc : ∀ x, x < g.width → ∀ y, y < g.height →
      ((g.get (x, y)).isOk = true ↔ (y = r ∧ x ∈ S)))
    (htyp : ∀ x ∈ S, g.get (x, r) = Except.ok t)
    {l : List (Nat × Nat)} (hl : ∀ p ∈ l, p.1 < g.width ∧ p.2 < g.height) :
    SameTyped g t l := by
  intro p hp u hget
  obtain ⟨hx, hy⟩ := hl p hp
  have hiff := hocc p.1 hx p.2 hy
  rw [Prod.mk.eta] at hiff
  have hok : (g.get p).isOk = true := by rw [hget]; rfl
  obtain ⟨hyr, hxS⟩ := hiff.mp hok
  have hgt := htyp p.1 hxS
  have hpe : p = (p.1, r) := by
    rw [← hyr]
  rw [hpe] at hget
  rw [hgt] at hget
  exact (Except.ok.inj hget).symm

lemma occ_Hline_mem {g : Grid} {r : Nat} {S : Finset Nat}
    (hocc : ∀ x, x < g.width → ∀ y, y < g.height →
      ((g.get (x, y)).isOk = true ↔ (y = r ∧ x ∈ S)))
    {x : Nat} (hx : x < g.width) (hxS : x ∈ S) (hr : r < g.height) :
    occList g (linePositions g MatchDirection.Horizontal x) = [(x, r)] := by
  unfold occList
  rw [linePositions_H, filter_map_list]
  have hp : ∀ y, y < g.height → (((g.get (x, y)).isOk) = true ↔ y = r) := by
    intro y hy
    rw [hocc x hx y hy]
    constructor
    · rintro ⟨h1, _⟩
      exact h1
    · intro h1
      exact ⟨h1, hxS⟩
  rw [range_filter_eq_single r _ g.height hr hp]
  rfl

lemma occ_Hline_not_mem {g : Grid} {r : Nat} {S : Finset Nat}
    (hocc : ∀ x, x < g.width → ∀ y, y < g.height →
      ((g.get (x, y)).isOk = true ↔ (y = r ∧ x ∈ S)))
    {x : Nat} (hx : x < g.width) (hxS : x ∉ S) :
    occList g (linePositions g MatchDirection.Horizontal x) = [] := by
  unfold occList
  rw [linePositions_H, filter_map_list]
  have h1 : (List.range g.height).filter (fun a => (g.get (x, a)).isOk) = [] := by
    rw [List.filter_eq_nil_iff]
    intro y hy
    rw [List.mem_range] at hy
    intro hok
    exact hxS ((hocc x hx y hy).mp hok).2
  rw [h1]
  rfl

lemma occ_Vline_ne {g : Grid} {r : Nat} {S : Finset Nat}
    (hocc : ∀ x, x < g.width → ∀ y, y < g.height →
      ((g.get (x, y)).isOk = true ↔ (y = r ∧ x ∈ S)))
    {y : Nat} (hy : y < g.height) (hyr : y ≠ r) :
    occList g (linePositions g MatchDirection.Vertical y) = [] := by
  unfold occList
  rw [linePositions_V, filter_map_list]
  have h1 : (List.range g.width).filter (fun a => (g.get (a, y)).isOk) = [] := by
    rw [List.filter_eq_nil_iff]
    intro x hxw
    rw [List.mem_range] at hxw
    intro hok
    exact hyr ((hocc x hxw y hy).mp hok).1
  rw [h1]
  rfl

lemma occ_Vline_r {g : Grid} {r : Nat} {S : Finset Nat}
    (hocc : ∀ x, x < g.width → ∀ y, y < g.height →
      ((g.get (x, y)).isOk = true ↔ (y = r ∧ x ∈ S)))
    (hr : r < g.height) :
    occList g (linePositions g MatchDirection.Vertical r) =
      ((List.range g.width).filter (fun a => decide (a ∈ S))).map (fun a => (a, r)) := by
  unfold occList
  rw [linePositions_V, filter_map_list]
  congr 1
  apply List.filter_congr
  intro a ha
  rw [List.mem_range] at ha
  by_cases haS : a ∈ S
  · rw [(hocc a ha r hr).mpr ⟨rfl, haS⟩, decide_eq_true haS]
  · have hok : (g.get (a, r)).isOk = false := by
      cases hok2 : (g.get (a, r)).isOk
      · rfl
      · exact absurd ((hocc a ha r hr).mp hok2).2 haS
    rw [hok, decide_eq_false haS]

lemma filterS_nodup (w : Nat) (S : Finset Nat) :
    ((List.range w).filter (fun a => decide (a ∈ S))).Nodup :=
  (List.nodup_range w).filter _

lemma filterS_toFinset {w : Nat} {S : Finset Nat} (hS : ∀ x ∈ S, x < w) :
    ((List.range w).filter (fun a => decide (a ∈ S))).toFinset = S := by
  ext a
  simp only [List.mem_toFinset, List.mem_filter, List.mem_range, decide_eq_true_eq]
  constructor
  · rintro ⟨_, h⟩
    exact h
  · intro h
    exact ⟨hS a h, h⟩

lemma filterS_length {w : Nat} {S : Finset Nat} (hS : ∀ x ∈ S, x < w) :
    ((List.range w).filter (fun a => decide (a ∈ S))).length = S.card := by
  have h1 := List.toFinset_card_of_nodup (filterS_nodup w S)
  rw [filterS_toFinset hS] at h1
  exact h1.symm

lemma singleRow_matches {g : Grid} {r t : Nat} {S : Finset Nat}
    (hW : ∀ x ∈ S, x < g.width) (hr : r < g.height)
    (hocc : ∀ x, x < g.width → ∀ y, y < g.height →
      ((g.get (x, y)).isOk = true ↔ (y = r ∧ x ∈ S)))
    (htyp : ∀ x ∈ S, g.get (x, r) = Except.ok t) :
    (g.get_matches).list =
      if 4 ≤ S.card then [Match.straight (S.image (fun x => (x, r)))] else [] := by
  have hH : (g.straight_matches MatchDirection.Horizontal).list = [] := by
    rw [straight_matches_H]
    apply foldl_lines_id
    intro x hx ms
    rw [List.mem_range] at hx
    have hst : SameTyped g t (linePositions g MatchDirection.Horizontal x) :=
      row_sameTyped hocc htyp (mem_linePositions_H hx)
    by_cases hxS : x ∈ S
    · refine scanLine_sameType_short ms hst ?_
      rw [occ_Hline_mem hocc hx hxS hr]
      simp
    · refine scanLine_sameType_short ms hst ?_
      rw [occ_Hline_not_mem hocc hx hxS]
      simp
  have hocc_r := occ_Vline_r (g := g) hocc hr
  have hV : (g.straight_matches MatchDirection.Vertical).list =
      if 4 ≤ S.card then [Match.straight (S.image (fun x => (x, r)))] else [] := by
    rw [straight_matches_V]
    have hstr : SameTyped g t (linePositions g MatchDirection.Vertical r) :=
      row_sameTyped hocc htyp (mem_linePositions_V hr)
    by_cases h4 : 4 ≤ S.card
    · rw [if_pos h4]
      have happ : ∀ ms, scanLine g ms (linePositions g MatchDirection.Vertical r) =
          ms ++ [Match.straight (S.image (fun x => (x, r)))] := by
        intro ms
        rw [scanLine_sameType ms hstr, hocc_r]
        rw [List.length_map, filterS_length hW]
        rw [list_toFinset_map, filterS_toFinset hW]
        rw [if_pos h4]
      have hoth : ∀ y ∈ List.range g.height, y ≠ r → ∀ ms,
          scanLine g ms (linePositions g MatchDirection.Vertical y) = ms := by
        intro y hy hyr ms
        rw [List.mem_range] at hy
        have hst : SameTyped g t (linePositions g MatchDirection.Vertical y) :=
          row_sameTyped hocc htyp (mem_linePositions_V hy)
        refine scanLine_sameType_short ms hst ?_
        rw [occ_Vline_ne hocc hy hyr]
        simp
      have hmain := foldl_lines_single
        (fun ms one => scanLine g ms (linePositions g MatchDirection.Vertical one))
        [Match.straight (S.image (fun x => (x, r)))]
        (List.range g.height) r (List.nodup_range g.height) (List.mem_range.mpr hr)
        hoth happ []
      simpa using hmain
    · rw [if_neg h4]
      apply foldl_lines_id
      intro y hy ms
      rw [List.mem_range] at hy
      have hst : SameTyped g t (linePositions g MatchDirection.Vertical y) :=
        row_sameTyped hocc htyp (mem_linePositions_V hy)
      by_cases hyr : y = r
      · subst hyr
        refine scanLine_sameType_short ms hst ?_
        rw [hocc_r, List.length_map, filterS_length hW]
        omega
      · refine scanLine_sameType_short ms hst ?_
        rw [occ_Vline_ne hocc hy hyr]
        simp
  rw [get_matches_list, hH, hV]
  simp

/-! ### Single-column configurations: occupied cells exactly `(c, y)` for `y ∈ S` -/

lemma col_sameTyped {g : Grid} {c t : Nat} {S : Finset Nat}
    (hocc : ∀ x, x < g.width → ∀ y, y < g.height →
      ((g.get (x, y)).isOk = true ↔ (x = c ∧ y ∈ S)))
    (htyp : ∀ y ∈ S, g.get (c, y) = Except.ok t)
    {l : List (Nat × Nat)} (hl : ∀ p ∈ l, p.1 < g.width ∧ p.2 < g.height) :
    SameTyped g t l := by
  intro p hp u hget
  obtain ⟨hx, hy⟩ := hl p hp
  have hiff := hocc p.1 hx p.2 hy
  rw [Prod.mk.eta] at hiff
  have hok : (g.get p).isOk = true := by rw [hget]; rfl
  obtain ⟨hxc, hyS⟩ := hiff.mp hok
  have hgt := htyp p.2 hyS
  have hpe : p = (c, p.2) := by
    rw [← hxc]
  rw [hpe] at hget
  rw [hgt] at hget
  exact (Except.ok.inj hget).symm

lemma occ_Vline_col_mem {g : Grid} {c : Nat} {S : Finset Nat}
    (hocc : ∀ x, x < g.width → ∀ y, y < g.height →
      ((g.get (x, y)).isOk = true ↔ (x = c ∧ y ∈ S)))
    {y : Nat} (hy : y < g.height) (hyS : y ∈ S) (hc : c < g.width) :
    occList g (linePositions g MatchDirection.Vertical y) = [(c, y)] := by
  unfold occList
  rw [linePositions_V, filter_map_list]
  have hp : ∀ x, x < g.width → (((g.get (x, y)).isOk) = true ↔ x = c) := by
    intro x hxw
    rw [hocc x hxw y hy]
    constructor
    · rintro ⟨h1, _⟩
      exact h1
    · intro h1
      exact ⟨h1, hyS⟩
  rw [range_filter_eq_single c _ g.width hc hp]
  rfl

lemma occ_Vline_col_not_mem {g : Grid} {c : Nat} {S : Finset Nat}
    (hocc : ∀ x, x < g.width → ∀ y, y < g.height →
      ((g.get (x, y)).isOk = true ↔ (x = c ∧ y ∈ S)))
    {y : Nat} (hy : y < g.height) (hyS : y ∉ S) :
    occList g (linePositions g MatchDirection.Vertical y) = [] := by
  unfold occList
  rw [linePositions_V, filter_map_list]
  have h1 : (List.range g.width).filter (fun a => (g.get (a, y)).isOk) = [] := by
    rw [List.filter_eq_nil_iff]
    intro x hxw
    rw [List.mem_range] at hxw
    intro hok
    exact hyS ((hocc x hxw y hy).mp hok).2
  rw [h1]
  rfl

lemma occ_Hline_col_ne {g : Grid} {c : Nat} {S : Finset Nat}
    (hocc : ∀ x, x < g.width → ∀ y, y < g.height →
      ((g.get (x, y)).isOk = true ↔ (x = c ∧ y ∈ S)))
    {x : Nat} (hx : x < g.width) (hxc : x ≠ c) :
    occList g (linePositions g MatchDirection.Horizontal x) = [] := by
  unfold occList
  rw [linePositions_H, filter_map_list]
  have h1 : (List.range g.height).filter (fun a => (g.get (x, a)).isOk) = [] := by
    rw [List.filter_eq_nil_iff]
    intro y hy
    rw [List.mem_range] at hy
    intro hok
    exact hxc ((hocc x hx y hy).mp hok).1
  rw [h1]
  rfl

lemma occ_Hline_col_eq {g : Grid} {c : Nat} {S : Finset Nat}
    (hocc : ∀ x, x < g.width → ∀ y, y < g.height →
      ((g.get (x, y)).isOk = true ↔ (x = c ∧ y ∈ S)))
    (hc : c < g.width) :
    occList g (linePositions g MatchDirection.Horizontal c) =
      ((List.range g.height).filter (fun a => decide (a ∈ S))).map (fun a => (c, a)) := by
  unfold occList
  rw [linePositions_H, filter_map_list]
  congr 1
  apply List.filter_congr
  intro a ha
  rw [List.mem_range] at ha
  by_cases haS : a ∈ S
  · rw [(hocc c hc a ha).mpr ⟨rfl, haS⟩, decide_eq_true haS]
  · have hok : (g.get (c, a)).isOk = false := by
      cases hok2 : (g.get (c, a)).isOk
      · rfl
      · exact absurd ((hocc c hc a ha).mp hok2).2 haS
    rw [hok, decide_eq_false haS]

lemma singleCol_matches {g : Grid} {c t : Nat} {S : Finset Nat}
    (hH : ∀ y ∈ S, y < g.height) (hc : c < g.width)
    (hocc : ∀ x, x < g.width → ∀ y, y < g.height →
      ((g.get (x, y)).isOk = true ↔ (x = c ∧ y ∈ S)))
    (htyp : ∀ y ∈ S, g.get (c, y) = Except.ok t) :
    (g.get_matches).list =
      if 4 ≤ S.card then [Match.straight (S.image (fun y => (c, y)))] else [] := by
  have hocc_c := occ_Hline_col_eq (g := g) hocc hc
  have hHp : (g.straight_matches MatchDirection.Horizontal).list =
      if 4 ≤ S.card then [Match.straight (S.image (fun y => (c, y)))] else [] := by
    rw [straight_matches_H]
    have hstc : SameTyped g t (linePositions g MatchDirection.Horizontal c) :=
      col_sameTyped hocc htyp (mem_linePositions_H hc)
    by_cases h4 : 4 ≤ S.card
    · rw [if_pos h4]
      have happ : ∀ ms, scanLine g ms (linePositions g MatchDirection.Horizontal c) =
          ms ++ [Match.straight (S.image (fun y => (c, y)))] := by
        intro ms
        rw [scanLine_sameType ms hstc, hocc_c]
        rw [List.length_map, filterS_length hH]
        rw [list_toFinset_map, filterS_toFinset hH]
        rw [if_pos h4]
      have hoth : ∀ x ∈ List.range g.width, x ≠ c → ∀ ms,
          scanLine g ms (linePositions g MatchDirection.Horizontal x) = ms := by
        intro x hxw hxc ms
        rw [List.mem_range] at hxw
        have hst : SameTyped g t (linePositions g MatchDirection.Horizontal x) :=
          col_sameTyped hocc htyp (mem_linePositions_H hxw)
        refine scanLine_sameType_short ms hst ?_
        rw [occ_Hline_col_ne hocc hxw hxc]
        simp
      have hmain := foldl_lines_single
        (fun ms one => scanLine g ms (linePositions g MatchDirection.Horizontal one))
        [Match.straight (S.image (fun y => (c, y)))]
        (List.range g.width) c (List.nodup_range g.width) (List.mem_range.mpr hc)
        hoth happ []
      simpa using hmain
    · rw [if_neg h4]
      apply foldl_lines_id
      intro x hxw ms
      rw [List.mem_range] at hxw
      have hst : SameTyped g t (linePositions g MatchDirection.Horizontal x) :=
        col_sameTyped hocc htyp (mem_linePositions_H hxw)
      by_cases hxc : x = c
      · subst hxc
        refine scanLine_sameType_short ms hst ?_
        rw [hocc_c, List.length_map, filterS_length hH]
        omega
      · refine scanLine_sameType_short ms hst ?_
        rw [occ_Hline_col_ne hocc hxw hxc]
        simp
  have hVp : (g.straight_matches MatchDirection.Vertical).list = [] := by
    rw [straight_matches_V]
    apply foldl_lines_id
    intro y hy ms
    rw [List.mem_range] at hy
    have hst : SameTyped g t (linePositions g MatchDirection.Vertical y) :=
      col_sameTyped hocc htyp (mem_linePositions_V hy)
    by_cases hyS : y ∈ S
    · refine scanLine_sameType_short ms hst ?_
      rw [occ_Vline_col_mem hocc hy hyS hc]
      simp
    · refine scanLine_sameType_short ms hst ?_
      rw [occ_Vline_col_not_mem hocc hy hyS]
      simp
  rw [get_matches_list, hHp, hVp]
  simp

/-! ### Structural facts about emitted matches: size and line confinement -/

lemma Match.coords_straight (s : Finset (Nat × Nat)) : (Match.straight s).coords = s := rfl

lemma mem_closeRun {ms : List Match} {cur : List (Nat × Nat)} {m : Match}
    (h : m ∈ closeRun ms cur) :
    m ∈ ms ∨ (4 ≤ cur.length ∧ m = Match.straight cur.toFinset) := by
  unfold closeRun at h
  by_cases h4 : 4 ≤ cur.length
  · rw [if_pos h4] at h
    rcases List.mem_append.mp h with h1 | h1
    · exact Or.inl h1
    · right
      exact ⟨h4, List.mem_singleton.mp h1⟩
  · rw [if_neg h4] at h
    exact Or.inl h

lemma scanFold_card (g : Grid) :
    ∀ (l : List (Nat × Nat)) (s : ScanState), (s.current ++ l).Nodup →
      (∀ m ∈ (l.foldl (scanStep g) s).acc, m ∈ s.acc ∨ 4 ≤ m.coords.card) ∧
        ((l.foldl (scanStep g) s).current).Nodup := by
  intro l
  induction l with
  | nil =>
    intro s hnd
    refine ⟨fun m hm => Or.inl hm, ?_⟩
    simpa using hnd
  | cons p l ih =>
    intro s hnd
    rw [List.foldl_cons]
    cases hg : g.get p with
    | error e =>
      rw [scanStep_err s hg]
      apply ih s
      rcases List.nodup_append.mp hnd with ⟨h1, h2, h3⟩
      rw [List.nodup_append]
      refine ⟨h1, (List.nodup_cons.mp h2).2, ?_⟩
      intro a ha hb
      exact h3 ha (List.mem_cons_of_mem p hb)
    | ok u =>
      by_cases hcond : s.current = [] ∨ s.previous_type = some u
      · rw [scanStep_extend s hg hcond]
        have hnd2 : ((s.current ++ [p]) ++ l).Nodup := by
          rw [List.append_assoc]
          exact hnd
        exact ih ⟨s.acc, s.current ++ [p], some u⟩ hnd2
      · rw [scanStep_close s hg hcond]
        have hndp : ([p] ++ l).Nodup := hnd.of_append_right
        have hcur : s.current.Nodup := hnd.of_append_left
        have hstep := ih ⟨closeRun s.acc s.current, [p], some u⟩ hndp
        refine ⟨?_, hstep.2⟩
        intro m hm
        rcases hstep.1 m hm with h1 | h1
        · rcases mem_closeRun h1 with h2 | ⟨h4, rfl⟩
          · exact Or.inl h2
          · right
            rw [Match.coords_straight, List.toFinset_card_of_nodup hcur]
            exact h4
        · exact Or.inr h1

lemma scanLine_card (g : Grid) (ms : List Match) (l : List (Nat × Nat)) (hnd : l.Nodup) :
    ∀ m ∈ scanLine g ms l, m ∈ ms ∨ 4 ≤ m.coords.card := by
  unfold scanLine
  intro m hm
  have h := scanFold_card g l ⟨ms, [], none⟩ (by simpa using hnd)
  rcases mem_closeRun hm with h1 | ⟨h4, rfl⟩
  · exact h.1 m h1
  · right
    rw [Match.coords_straight, List.toFinset_card_of_nodup h.2]
    exact h4

lemma scanFold_line (g : Grid) (P : (Nat × Nat) → Prop) :
    ∀ (l : List (Nat × Nat)) (s : ScanState),
      (∀ p ∈ s.current, P p) → (∀ p ∈ l, P p) →
      (∀ m ∈ (l.foldl (scanStep g) s).acc, m ∈ s.acc ∨ ∀ p ∈ m.coords, P p) ∧
        (∀ p ∈ (l.foldl (scanStep g) s).current, P p) := by
  intro l
  induction l with
  | nil =>
    intro s hcur _
    exact ⟨fun m hm => Or.inl hm, hcur⟩
  | cons p l ih =>
    intro s hcur hall
    rw [List.foldl_cons]
    have hp : P p := hall p (List.mem_cons_self p l)
    have hall2 : ∀ q ∈ l, P q := fun q hq => hall q (List.mem_cons_of_mem p hq)
    cases hg : g.get p with
    | error e =>
      rw [scanStep_err s hg]
      exact ih s hcur hall2
    | ok u =>
      by_cases hcond : s.current = [] ∨ s.previous_type = some u
      · rw [scanStep_extend s hg hcond]
        apply ih ⟨s.acc, s.current ++ [p], some u⟩ ?_ hall2
        intro q hq
        rcases List.mem_append.mp hq with h1 | h1
        · exact hcur q h1
        · rw [List.mem_singleton.mp h1]
          exact hp
      · rw [scanStep_close s hg hcond]
        have hstep := ih ⟨closeRun s.acc s.current, [p], some u⟩
          (fun q hq => by rw [List.mem_singleton.mp hq]; exact hp) hall2
        refine ⟨?_, hstep.2⟩
        intro m hm
        rcases hstep.1 m hm with h1 | h1
        · rcases mem_closeRun h1 with h2 | ⟨_, rfl⟩
          · exact Or.inl h2
          · right
            intro q hq
            rw [Match.coords_straight, List.mem_toFinset] at hq
            exact hcur q hq
        · exact Or.inr h1

lemma scanLine_line (g : Grid) (ms : List Match) (l : List (Nat × Nat))
    (P : (Nat × Nat) → Prop) (hall : ∀ p ∈ l, P p) :
    ∀ m ∈ scanLine g ms l, m ∈ ms ∨ ∀ p ∈ m.coords, P p := by
  unfold scanLine
  intro m hm
  have h := scanFold_line g P l ⟨ms, [], none⟩ (by simp) hall
  rcases mem_closeRun hm with h1 | ⟨_, rfl⟩
  · exact h.1 m h1
  · right
    intro q hq
    rw [Match.coords_straight, List.mem_toFinset] at hq
    exact h.2 q hq

lemma foldl_lines_pred {α : Type} (step : List Match → α → List Match) (Q : Match → Prop) :
    ∀ (L : List α) (ms : List Match),
      (∀ a ∈ L, ∀ ms2 m, m ∈ step ms2 a → m ∈ ms2 ∨ Q m) →
      (∀ m ∈ ms, Q m) →
      ∀ m ∈ L.foldl step ms, Q m := by
  intro L
  induction L with
  | nil => intro ms _ hms; exact hms
  | cons a L ih =>
    intro ms hstep hms
    rw [List.foldl_cons]
    apply ih (step ms a) (fun b hb => hstep b (List.mem_cons_of_mem a hb))
    intro m hm
    rcases hstep a (List.mem_cons_self a L) ms m hm with h1 | h1
    · exact hms m h1
    · exact h1

lemma linePositions_nodup (g : Grid) (d : MatchDirection) (one : Nat) :
    (linePositions g d one).Nodup := by
  cases d with
  | Horizontal =>
    rw [linePositions_H]
    refine List.Nodup.map ?_ (List.nodup_range g.height)
    intro a b hab
    exact congrArg Prod.snd hab
  | Vertical =>
    rw [linePositions_V]
    refine List.Nodup.map ?_ (List.nodup_range g.width)
    intro a b hab
    exact congrArg Prod.fst hab

lemma straight_matches_card (g : Grid) (d : MatchDirection) :
    ∀ m ∈ (g.straight_matches d).list, 4 ≤ m.coords.card := by
  cases d with
  | Horizontal =>
    rw [straight_matches_H]
    apply foldl_lines_pred
    · intro a _ ms2 m hm
      exact scanLine_card g ms2 _ (linePositions_nodup g MatchDirection.Horizontal a) m hm
    · intro m hm
      exact absurd hm (List.not_mem_nil m)
  | Vertical =>
    rw [straight_matches_V]
    apply foldl_lines_pred
    · intro a _ ms2 m hm
      exact scanLine_card g ms2 _ (linePositions_nodup g MatchDirection.Vertical a) m hm
    · intro m hm
      exact absurd hm (List.not_mem_nil m)

lemma straight_matches_H_const_fst (g : Grid) :
    ∀ m ∈ (g.straight_matches MatchDirection.Horizontal).list,
      ∃ x, ∀ p ∈ m.coords, p.1 = x := by
  rw [straight_matches_H]
  apply foldl_lines_pred
  · intro a _ ms2 m hm
    have h := scanLine_line g ms2 _ (fun p => p.1 = a) ?_ m hm
    · rcases h with h1 | h1
      · exact Or.inl h1
      · exact Or.inr ⟨a, h1⟩
    · intro p hp
      rw [linePositions_H] at hp
      simp only [List.mem_map, List.mem_range] at hp
      obtain ⟨b, _, rfl⟩ := hp
      rfl
  · intro m hm
    exact absurd hm (List.not_mem_nil m)

lemma straight_matches_V_const_snd (g : Grid) :
    ∀ m ∈ (g.straight_matches MatchDirection.Vertical).list,
      ∃ y, ∀ p ∈ m.coords, p.2 = y := by
  rw [straight_matches_V]
  apply foldl_lines_pred
  · intro a _ ms2 m hm
    have h := scanLine_line g ms2 _ (fun p => p.2 = a) ?_ m hm
    · rcases h with h1 | h1
      · exact Or.inl h1
      · exact Or.inr ⟨a, h1⟩
    · intro p hp
      rw [linePositions_V] at hp
      simp only [List.mem_map, List.mem_range] at hp
      obtain ⟨b, _, rfl⟩ := hp
      rfl
  · intro m hm
    exact absurd hm (List.not_mem_nil m)

/-! ### Claims -/

/-- Claim C9: on the 7×6 grid whose only occupied cells are the full bottom
row with types `[0,0,0,0,1,1,1]`, `get_matches` returns exactly one match, and
its coordinate set is the four cells at columns 0–3 of row 0; the length-3 run
at columns 4–6 contributes nothing. -/
theorem bottom_row_single_match :
    gBottomRow.get_matches =
      ⟨[Match.straight ({(0,0), (1,0), (2,0), (3,0)} : Finset (Nat × Nat))]⟩ := by
  decide

/-- Claim C1: for every single-line configuration of same-typed pieces (all
occupied cells on one row, or all on one column), the scan applies the `>= 4`
threshold exactly: 3 occupied cells yield zero matches; 4 contiguous cells
yield exactly one match whose coordinate set is those 4 cells; 5 contiguous
cells yield one single match of all 5 coordinates, not a 4-match plus a
leftover. -/
theorem single_line_threshold :
    (∀ (g : Grid) (r t : Nat) (S : Finset Nat),
        (∀ x ∈ S, x < g.width) → r < g.height →
        (∀ x, x < g.width → ∀ y, y < g.height →
          ((g.get (x, y)).isOk = true ↔ (y = r ∧ x ∈ S))) →
        (∀ x ∈ S, g.get (x, r) = Except.ok t) →
        ((S.card = 3 → (g.get_matches).list = []) ∧
          (∀ a, S = Finset.Icc a (a + 3) →
            (g.get_matches).list = [Match.straight (S.image (fun x => (x, r)))]) ∧
          (∀ a, S = Finset.Icc a (a + 4) →
            (g.get_matches).list = [Match.straight (S.image (fun x => (x, r)))])))
    ∧ (∀ (g : Grid) (c t : Nat) (S : Finset Nat),
        (∀ y ∈ S, y < g.height) → c < g.width →
        (∀ x, x < g.width → ∀ y, y < g.height →
          ((g.get (x, y)).isOk = true ↔ (x = c ∧ y ∈ S))) →
        (∀ y ∈ S, g.get (c, y) = Except.ok t) →
        ((S.card = 3 → (g.get_matches).list = []) ∧
          (∀ a, S = Finset.Icc a (a + 3) →
            (g.get_matches).list = [Match.straight (S.image (fun y => (c, y)))]) ∧
          (∀ a, S = Finset.Icc a (a + 4) →
            (g.get_matches).list = [Match.straight (S.image (fun y => (c, y)))]))) := by
  constructor
  · intro g r t S hW hr hocc htyp
    have hmain := singleRow_matches hW hr hocc htyp
    refine ⟨?_, ?_, ?_⟩
    · intro h3
      rw [hmain, if_neg (by omega)]
    · intro a hS
      have hcard : 4 ≤ S.card := by
        rw [hS, Nat.card_Icc]
        omega
      rw [hmain, if_pos hcard]
    · intro a hS
      have hcard : 4 ≤ S.card := by
        rw [hS, Nat.card_Icc]
        omega
      rw [hmain, if_pos hcard]
  · intro g c t S hH hc hocc htyp
    have hmain := singleCol_matches hH hc hocc htyp
    refine ⟨?_, ?_, ?_⟩
    · intro h3
      rw [hmain, if_neg (by omega)]
    · intro a hS
      have hcard : 4 ≤ S.card := by
        rw [hS, Nat.card_Icc]
        omega
      rw [hmain, if_pos hcard]
    · intro a hS
      have hcard : 4 ≤ S.card := by
        rw [hS, Nat.card_Icc]
        omega
      rw [hmain, if_pos hcard]

/-- Witness for `single_line_threshold`: the row grid with the contiguous run
at columns 1–4 of row 0 produces exactly that 4-cell match, and the column
grid with 3 pieces in column 2 produces no match. -/
theorem single_line_threshold_witness :
    (gRowFour.get_matches).list =
      [Match.straight ((Finset.Icc 1 4).image (fun x => (x, 0)))] ∧
    (gColThree.get_matches).list = [] := by
  constructor
  · exact (single_line_threshold.1 gRowFour 0 0 (Finset.Icc 1 4)
      (by decide) (by decide) (by decide) (by decide)).2.1 1 rfl
  · exact (single_line_threshold.2 gColThree 2 1 {0, 1, 2}
      (by decide) (by decide) (by decide) (by decide)).1 (by decide)

/-- Claim C3: an empty cell does not close or break the current run: in any
grid whose occupied cells all lie on row `r`, all hold type `t` and sit at the
columns of `S` (contiguous or not), the separated groups merge into one run,
and whenever at least 4 cells are occupied the result is the single match of
all of them; in particular a row `[0,0,_,0,0]` gives one match of those
4 coordinates. -/
theorem empty_gap_merges_runs (g : Grid) (r t : Nat) (S : Finset Nat)
    (hW : ∀ x ∈ S, x < g.width) (hr : r < g.height)
    (hocc : ∀ x, x < g.width → ∀ y, y < g.height →
      ((g.get (x, y)).isOk = true ↔ (y = r ∧ x ∈ S)))
    (htyp : ∀ x ∈ S, g.get (x, r) = Except.ok t)
    (h4 : 4 ≤ S.card) :
    (g.get_matches).list = [Match.straight (S.image (fun x => (x, r)))] := by
  rw [singleRow_matches hW hr hocc htyp, if_pos h4]

/-- Witness for `empty_gap_merges_runs`: the row `[0,0,_,0,0]` (columns
0,1,3,4 of row 0) yields one match holding exactly those 4 coordinates. -/
theorem empty_gap_merges_runs_witness :
    (gRowGap.get_matches).list =
      [Match.straight (({0, 1, 3, 4} : Finset Nat).image (fun x => (x, 0)))] :=
  empty_gap_merges_runs gRowGap 0 0 {0, 1, 3, 4}
    (by decide) (by decide) (by decide) (by decide) (by decide)

/-- Claim C2: for every sequence of `add_at_column` calls targeting one column
`c < width` of the empty grid, the occupied rows of column `c` are exactly
`{0, 1, …, k-1}` for some `k ≤ height`: no gap below an occupied cell ever
appears. -/
theorem gravity_invariant (w h c : Nat) (hc : c < w) (ts : List Nat) :
    ∃ k, k ≤ h ∧ ∀ y,
      ((((Grid.empty w h).applyColumnSeq c ts).get (c, y)).isOk = true ↔ y < k) := by
  have hbase : ∃ k, k ≤ (Grid.empty w h).height ∧ ColumnFilled (Grid.empty w h) c k :=
    ⟨0, Nat.zero_le _, columnFilled_empty w h c⟩
  have hmain := columnFilled_applyColumnSeq c ts (Grid.empty w h) hbase
  rw [applyColumnSeq_height] at hmain
  obtain ⟨k, hk, hf⟩ := hmain
  exact ⟨k, hk, hf⟩

/-- Witness for `gravity_invariant` after three placements in column 0 of the
7×6 grid. -/
theorem gravity_invariant_witness :
    ∃ k, k ≤ 6 ∧ ∀ y,
      ((((Grid.empty 7 6).applyColumnSeq 0 [0, 1, 0]).get (0, y)).isOk = true ↔ y < k) :=
  gravity_invariant 7 6 0 (by decide) [0, 1, 0]

/-- Counterexample to claim C4 as stated: on `gFullColumn` (column 0 holds all
6 pieces) the source `add_at_column` returns with the grid unchanged and
reports nothing — the Rust function returns `()` and has no error value —
whereas the spec-worded operation reports `ColumnFull`. So the placement does
not fail with an explicitly reported error; it silently does nothing. -/
theorem column_full_not_reported :
    gFullColumn.add_at_column 0 1 = gFullColumn ∧
      addAtColumnSpec gFullColumn 0 1 = Except.error AddError.ColumnFull := by
  exact ⟨by decide, by decide⟩

/-- Claim C4 amended: on a full column the next `add_at_column` silently does
nothing — it returns with the grid unchanged and no `ColumnFull` error is
reported, because the function has no error channel at all. -/
theorem column_full_silent_noop (g : Grid) (c t : Nat)
    (hfull : ∀ y, y < g.height → (g.get (c, y)).isOk = true) :
    g.add_at_column c t = g :=
  add_at_column_of_full c t hfull

/-- Witness for `column_full_silent_noop` on the grid with column 0 full. -/
theorem column_full_silent_noop_witness :
    gFullColumn.add_at_column 0 1 = gFullColumn :=
  column_full_silent_noop gFullColumn 0 1 (by decide)

/-- Claim C5: when column `c < width` is full (every row occupied), calling
`add_at_column` leaves the elements mapping, the width and the height of the
grid completely unchanged. -/
theorem full_column_leaves_grid_unchanged (g : Grid) (c t : Nat) (hc : c < g.width)
    (hfull : ∀ y, y < g.height → (g.get (c, y)).isOk = true) :
    (g.add_at_column c t).elements = g.elements ∧
      (g.add_at_column c t).width = g.width ∧
      (g.add_at_column c t).height = g.height := by
  rw [add_at_column_of_full c t hfull]
  exact ⟨rfl, rfl, rfl⟩

/-- Witness for `full_column_leaves_grid_unchanged` on the grid with column 0
full. -/
theorem full_column_leaves_grid_unchanged_witness :
    (gFullColumn.add_at_column 0 1).elements = gFullColumn.elements ∧
      (gFullColumn.add_at_column 0 1).width = gFullColumn.width ∧
      (gFullColumn.add_at_column 0 1).height = gFullColumn.height :=
  full_column_leaves_grid_unchanged gFullColumn 0 1 (by decide) (by decide)

/-- Claim C7: immediately after `insert (p, t)`, `get p` returns `t`,
overwriting whatever was stored at `p` before (the grid `g` is arbitrary); and
`get` at a position never inserted returns the `NoElem` error. Both operations
are total pure functions of this embedding, so they panic nowhere and `get`
has no side effect. -/
theorem insert_get_roundtrip :
    (∀ (g : Grid) (p : Nat × Nat) (t : Nat), (g.insert p t).get p = Except.ok t) ∧
    (∀ (w h : Nat) (ops : List ((Nat × Nat) × Nat)) (p : Nat × Nat),
      (∀ op ∈ ops, op.1 ≠ p) →
      ((ops.foldl (fun g op => g.insert op.1 op.2) (Grid.empty w h)).get p =
        Except.error ElemError.NoElem)) := by
  constructor
  · intro g p t
    rw [Grid.get_insert, if_pos rfl]
  · intro w h ops p
    have hgen : ∀ (ops2 : List ((Nat × Nat) × Nat)) (g : Grid),
        g.get p = Except.error ElemError.NoElem →
        (∀ op ∈ ops2, op.1 ≠ p) →
        ((ops2.foldl (fun g op => g.insert op.1 op.2) g).get p =
          Except.error ElemError.NoElem) := by
      intro ops2
      induction ops2 with
      | nil =>
        intro g hg _
        exact hg
      | cons op ops2 ih =>
        intro g hg hne
        rw [List.foldl_cons]
        have hnp : ¬ (p = op.1) := fun hh =>
          hne op (List.mem_cons_self op ops2) hh.symm
        refine ih _ ?_ (fun op2 h2 => hne op2 (List.mem_cons_of_mem op h2))
        rw [Grid.get_insert, if_neg hnp]
        exact hg
    intro hne
    exact hgen ops (Grid.empty w h) rfl hne

/-- Witness for `insert_get_roundtrip`: one concrete insert-then-get, and one
get at a position avoided by all inserts. -/
theorem insert_get_roundtrip_witness :
    ((Grid.empty 7 6).insert (1, 2) 5).get (1, 2) = Except.ok 5 ∧
    ((([((0, 0), 1), ((1, 0), 0)] : List ((Nat × Nat) × Nat)).foldl
      (fun g op => g.insert op.1 op.2) (Grid.empty 7 6)).get (3, 3) =
        Except.error ElemError.NoElem) :=
  ⟨insert_get_roundtrip.1 (Grid.empty 7 6) (1, 2) 5,
    insert_get_roundtrip.2 7 6 [((0, 0), 1), ((1, 0), 0)] (3, 3) (by decide)⟩

/-- Counterexample to claim C8 as stated: calling `add_at_column` with column
7 on the empty 7-wide grid reports no error and mutates the grid — the piece
is inserted at `(7, 0)`, outside the bounds — while the spec-worded operation
reports `OutOfRange`. -/
theorem out_of_range_mutates :
    (Grid.empty 7 6).add_at_column 7 0 ≠ Grid.empty 7 6 ∧
      ((Grid.empty 7 6).add_at_column 7 0).get (7, 0) = Except.ok 0 ∧
      addAtColumnSpec (Grid.empty 7 6) 7 0 = Except.error AddError.OutOfRange := by
  exact ⟨by decide, by decide, by decide⟩

/-- Claim C8 amended: `add_at_column` on a column `c ≥ width` does not report
any error (its signature has none) and does not leave the grid unchanged: when
the out-of-range column is empty and the grid has positive height, the piece
is inserted at row 0 of column `c`. It does not panic — the embedded function
is total. -/
theorem out_of_range_inserts (g : Grid) (c t : Nat)
    (hc : g.width ≤ c) (hpos : 0 < g.height)
    (hempty : ∀ y, y < g.height → (g.get (c, y)).isOk = false) :
    g.add_at_column c t = g.insert (c, 0) t := by
  unfold Grid.add_at_column
  have hp : ∀ y, y < g.height → (((g.get (c, y)).isErr) = true ↔ 0 ≤ y) := by
    intro y hy
    rw [isErr_eq_not_isOk, hempty y hy]
    simp
  rw [find_first_range _ 0 g.height hp, if_pos hpos]

/-- Witness for `out_of_range_inserts` at column 7 of the empty 7×6 grid. -/
theorem out_of_range_inserts_witness :
    (Grid.empty 7 6).add_at_column 7 0 = (Grid.empty 7 6).insert (7, 0) 0 :=
  out_of_range_inserts (Grid.empty 7 6) 7 0 (by decide) (by decide) (by decide)

/-- Counterexample to claim C6 as stated: on `gBothAxes` the first element of
`get_matches` is the column-6 run `{(6,0),(6,1),(6,2),(6,3)}` (a vertical
line) and the second is the row-0 run `{(0,0),(1,0),(2,0),(3,0)}` (a
horizontal line): the fixed-row-pass match does not precede the
fixed-column-pass match, so the stated orientation/order assignment is
false. -/
theorem axis_order_counterexample :
    (gBothAxes.get_matches).list =
      [Match.straight ({(6,0), (6,1), (6,2), (6,3)} : Finset (Nat × Nat)),
        Match.straight ({(0,0), (1,0), (2,0), (3,0)} : Finset (Nat × Nat))] ∧
      Match.straight ({(6,0), (6,1), (6,2), (6,3)} : Finset (Nat × Nat)) ≠
        Match.straight ({(0,0), (1,0), (2,0), (3,0)} : Finset (Nat × Nat)) := by
  exact ⟨by decide, by decide⟩

/-- Claim C6 amended: detection runs one pass per axis and returns the
concatenation in discovery order, but the orientations attached to the labels
are swapped: the pass labelled `Horizontal`, which runs first, fixes a column
and sweeps rows, so each of its matches lies within a single column (a
vertical run); the pass labelled `Vertical`, appended second, fixes a row and
sweeps columns, so each of its matches lies within a single row (a horizontal
run). Hence all column-scan matches precede all row-scan matches. -/
theorem axis_passes_swapped (g : Grid) :
    (g.get_matches).list =
      (g.straight_matches MatchDirection.Horizontal).list ++
        (g.straight_matches MatchDirection.Vertical).list ∧
    (∀ m ∈ (g.straight_matches MatchDirection.Horizontal).list,
      ∃ x, ∀ p ∈ m.coords, p.1 = x) ∧
    (∀ m ∈ (g.straight_matches MatchDirection.Vertical).list,
      ∃ y, ∀ p ∈ m.coords, p.2 = y) :=
  ⟨get_matches_list g, straight_matches_H_const_fst g, straight_matches_V_const_snd g⟩

/-- Witness for `axis_passes_swapped` on `gBothAxes`: the concatenation shape,
and the column-6 match of the first pass indeed lies in one column. -/
theorem axis_passes_swapped_witness :
    (gBothAxes.get_matches).list =
      (gBothAxes.straight_matches MatchDirection.Horizontal).list ++
        (gBothAxes.straight_matches MatchDirection.Vertical).list ∧
    (∃ x, ∀ p ∈ (Match.straight
        ({(6,0), (6,1), (6,2), (6,3)} : Finset (Nat × Nat))).coords, p.1 = x) := by
  refine ⟨(axis_passes_swapped gBothAxes).1, (axis_passes_swapped gBothAxes).2.1 _ ?_⟩
  decide

/-- Claim C10: every `Match` contained in the `Matches` returned by
`get_matches` holds at least 4 distinct coordinates — despite the in-code doc
comment describing `Straight` as a match of 3 or more gems — so a non-empty
result always witnesses a run that met the winning threshold. -/
theorem every_match_has_four_coords (g : Grid) (m : Match)
    (hm : m ∈ (g.get_matches).list) : 4 ≤ m.coords.card := by
  rw [get_matches_list] at hm
  rcases List.mem_append.mp hm with h1 | h1
  · exact straight_matches_card g MatchDirection.Horizontal m h1
  · exact straight_matches_card g MatchDirection.Vertical m h1

/-- Witness for `every_match_has_four_coords` on the bottom-row grid. -/
theorem every_match_has_four_coords_witness :
    4 ≤ (Match.straight
      ({(0,0), (1,0), (2,0), (3,0)} : Finset (Nat × Nat))).coords.card :=
  every_match_has_four_coords gBottomRow _ (by decide)
